import Mathlib

/-!
# Verification of the HyperETH SDK WebSocket session layer

Shallow embedding of `src/hypereth_sdk/websocket_client.py` (class
`WebSocketClient`) and the WebSocket subscription methods of
`src/hypereth_sdk/hyperliquid/client.py`, together with proofs of the
spec's claims about request correlation, pending-request bookkeeping,
timeout/disconnect error paths and subscription handling.

Modelling conventions:
* JSON values are the inductive `JVal`; Python dicts are association
  lists looked up by first match (Python dict keys are unique, and every
  dict built by this code has unique keys, so first-match lookup agrees
  with dict lookup).
* `json.loads` either fails (`RawMsg.malformed`, raising
  `json.JSONDecodeError`) or yields a parsed value (`RawMsg.parsed`).
* `asyncio.Future` objects are modelled as a heap `futures : List (Int ×
  FutureState)` keyed by the id the future was registered under in
  `pending_requests`; the table itself is the key list `pending`.  A
  future object outlives its table entry (the receive loop pops the
  entry and then resolves the future; the suspended caller still holds
  the future), which is why the heap is separate from the key list.
* Exceptions are the inductive `PyError`.  Python ≥ 3.8 (the package
  requires `python_requires=">=3.8"`) makes `asyncio.CancelledError` a
  `BaseException` that is NOT caught by `except Exception`; the
  predicate `PyError.isException` records which of our errors the
  handler clause `except Exception` catches.
* `send_request` is split at its suspension point: `sendRequestIssue`
  is everything before `await asyncio.wait_for(future, timeout)`, and
  `sendRequestAwait` resumes with the outcome of the wait (`resolved`
  when the receive loop set the future, `timedOut`, or `cancelled` for
  external cancellation of the calling task).
-/

namespace HyperEthSDK

/-- JSON values as parsed by `json.loads`. Objects are association lists. -/
inductive JVal where
  | null : JVal
  | bool : Bool → JVal
  | num : Int → JVal
  | str : String → JVal
  | arr : List JVal → JVal
  | obj : List (String × JVal) → JVal

namespace JVal

/-- Python `d.get(k)` on an object: first matching key, `none` (Python `None`)
when the key is absent or the value is not a dict (in the source a non-dict
would raise `AttributeError`, which the surrounding `except Exception`
swallows; the branches below only ever test the result against concrete
values, so returning `none` yields the same dispatch result). -/
def getKey : JVal → String → Option JVal
  | .obj fields, k => fields.lookup k
  | _, _ => none

/-- Python `d.get(k, default)`. -/
def getKeyD (v : JVal) (k : String) (d : JVal) : JVal :=
  (v.getKey k).getD d

/-- Python `str(v)` as used in the f-string `f"API Error: {error_msg}"`.
Exact for the string payloads the protocol uses; other shapes get a fixed
rendering (their exact Python `str()` text is irrelevant to the claims). -/
def pyStr : JVal → String
  | .str s => s
  | .num n => toString n
  | .bool true => "True"
  | .bool false => "False"
  | .null => "None"
  | .arr _ => "<list>"
  | .obj _ => "<dict>"

end JVal

/-- Python dict assignment `d[k] = v` on an association list: replace the
first binding of `k`, or append a fresh one. -/
def setKeyList (fields : List (String × JVal)) (k : String) (v : JVal) :
    List (String × JVal) :=
  match fields with
  | [] => [(k, v)]
  | (k0, v0) :: rest =>
    if k0 = k then (k, v) :: rest else (k0, v0) :: setKeyList rest k v

/-- Python `base.update(extra)`: assign every binding of `extra` into `base`
(later bindings win, exactly as `dict.update`). -/
def updateObj (base extra : List (String × JVal)) : List (String × JVal) :=
  extra.foldl (fun acc kv => setKeyList acc kv.1 kv.2) base

/-- A raw inbound frame: `json.loads` either raises `JSONDecodeError` or
produces a value. -/
inductive RawMsg where
  | malformed : String → RawMsg
  | parsed : JVal → RawMsg

/-- The exceptions the session layer can raise or store in a future.
The embedding keeps Python's class distinctions: `apiError` is the SDK's
`APIError`; `exception` is a BARE `Exception(msg)` instance of the base
class (the handler cleanup on line 113 sets exactly
`Exception("Connection closed")` — the SDK defines no connection-closed
exception type of its own); `connectionClosedError` is the typed
`websockets.exceptions.ConnectionClosedError` class, which exists in the
environment but is never stored in a future or raised to a waiter by
this code (listed so claims about it can be stated); `timeoutError` is
Python's builtin `TimeoutError` class, likewise never surfaced by this
code; `cancelledError` is `asyncio.CancelledError`. -/
inductive PyError where
  | apiError : String → PyError
  | exception : String → PyError
  | connectionClosedError : PyError
  | timeoutError : PyError
  | cancelledError : PyError
deriving DecidableEq, Repr

/-- Which errors the clause `except Exception` catches: on Python ≥ 3.8,
`asyncio.CancelledError` derives from `BaseException`, not `Exception`. -/
def PyError.isException : PyError → Bool
  | .cancelledError => false
  | _ => true

/-- State of one `asyncio.Future`. -/
inductive FutureState where
  | pending : FutureState
  | result : JVal → FutureState
  | exc : PyError → FutureState
  | cancelled : FutureState

/-- Python `future.done()`. -/
def FutureState.done : FutureState → Bool
  | .pending => false
  | _ => true

/-- The future heap: future objects keyed by the id they were registered
under in `pending_requests`. -/
abbrev FutureHeap := List (Int × FutureState)

/-- Look up the future registered under `n` (first match). -/
def lookupFut (fs : FutureHeap) (n : Int) : Option FutureState :=
  fs.lookup n

/-- Mutate the future registered under `n` (first binding), as
`future.set_result` / `future.set_exception` / cancellation do. -/
def setFut : FutureHeap → Int → FutureState → FutureHeap
  | [], _, _ => []
  | (k, f0) :: rest, n, f => if k = n then (k, f) :: rest else (k, f0) :: setFut rest n f

/-- Python `dict.pop(n, None)` on the key list: remove the first (under the
uniqueness invariant: the only) occurrence of `n`. -/
def removeId : List Int → Int → List Int
  | [], _ => []
  | k :: rest, n => if k = n then rest else k :: removeId rest n

/-- The duplex connection handle: `websockets.connect` yields an open
handle; `close()` leaves the attribute set but the socket closed. -/
inductive ConnState where
  | open : ConnState
  | closed : ConnState
deriving DecidableEq, Repr

/-- The instance state of `WebSocketClient` (`__init__`, lines 28–53),
plus the future heap described in the module docstring. -/
structure WSState where
  ws_url : String
  environment : String
  api_key : Option String
  websocket : Option ConnState
  running : Bool
  request_counter : Int
  pending : List Int
  futures : FutureHeap

/-- `WebSocketClient.__init__`: the `?env=` query parameter is appended
only when `environment` is nonempty; counter starts at 0, table empty. -/
def WSState.init (ws_url environment : String) (api_key : Option String) : WSState :=
  { ws_url := if environment ≠ "" then ws_url ++ "?env=" ++ environment else ws_url
    environment := environment
    api_key := api_key
    websocket := none
    running := false
    request_counter := 0
    pending := []
    futures := [] }

/-- `connect` (success path): opens the connection and sets `running`;
the receive loop task is started (modelled by running `messageHandler`
on the subsequent inbound events). The failure path wraps the transport
error in `APIError` and changes no state. -/
def WSState.connect (st : WSState) : WSState :=
  { st with websocket := some .open, running := true }

/-- `disconnect` (lines 85–92): clears `running`, closes the connection if
one was ever opened (`self.websocket` stays set, now closed). Total — no
exception can escape, so calling it while not connected is safe. -/
def WSState.disconnect (st : WSState) : WSState :=
  let st1 := { st with running := false }
  match st1.websocket with
  | some _ => { st1 with websocket := some .closed }
  | none => st1

/-- The `channel == "post"` branch body of `_process_message`
(lines 123–139): extract `data.get("data", {})` and its `id`; if that id is
a key of `pending_requests`, pop the entry and — unless the future is
already done — resolve it with the whole `data` object of the frame.
An absent or non-integer id can never equal an integer dict key, so it
falls to the unknown-id branch (log and drop, no state change). -/
def resolvePost (st : WSState) (data : JVal) : WSState :=
  let response_data := data.getKeyD "data" (.obj [])
  match response_data.getKey "id" with
  | some (.num n) =>
    if n ∈ st.pending then
      let futures1 :=
        match lookupFut st.futures n with
        | some .pending => setFut st.futures n (.result response_data)
        | _ => st.futures
      { st with pending := removeId st.pending n, futures := futures1 }
    else st
  | _ => st

/-- `_process_message` (lines 116–181).  The outer `try` catches
`json.JSONDecodeError` and every other `Exception`, so the function is
total and a malformed frame leaves the state untouched.  All branches
other than `channel == "post"` only log (the `allMids` branch can raise
`KeyError` on a missing `data`/`mids` key, which the catch-all swallows),
so they also leave the state unchanged. -/
def processMessage (st : WSState) (m : RawMsg) : WSState :=
  match m with
  | .malformed _ => st
  | .parsed data =>
    match data.getKey "channel" with
    | some (.str c) => if c = "post" then resolvePost st data else st
    | _ => st

/-- One inbound event seen by `_message_handler`'s loop body:
a frame delivered by `recv()`, the `ConnectionClosed` exception, or any
other exception raised by `recv()` (logged, loop continues). -/
inductive RecvEvent where
  | msg : RawMsg → RecvEvent
  | closedEvt : RecvEvent
  | recvError : RecvEvent

/-- One iteration of the `while self.running and self.websocket` loop in
`_message_handler` (lines 96–105).  Returns the new state and whether the
loop continues. -/
def handlerStep (st : WSState) (e : RecvEvent) : WSState × Bool :=
  if st.running ∧ st.websocket.isSome then
    match e with
    | .msg m => (processMessage st m, true)
    | .closedEvt => (st, false)
    | .recvError => (st, true)
  else (st, false)

/-- `future.set_exception(Exception("Connection closed"))` for the future
registered under `rid`, guarded by `if not future.done()` — note the
source instantiates the bare `Exception` base class, not any typed
connection-closed error. -/
def failFuture (fs : FutureHeap) (rid : Int) : FutureHeap :=
  match lookupFut fs rid with
  | some .pending => setFut fs rid (.exc (.exception "Connection closed"))
  | _ => fs

/-- The `finally` block of `_message_handler` (lines 109–114): every
still-pending future in the table gets `Exception("Connection closed")`,
then `pending_requests.clear()`. -/
def handlerCleanup (st : WSState) : WSState :=
  { st with futures := st.pending.foldl failFuture st.futures, pending := [] }

/-- The loop of `_message_handler` over a finite inbound event script,
stopping when the loop condition fails or `ConnectionClosed` is raised. -/
def handlerLoop (st : WSState) : List RecvEvent → WSState
  | [] => st
  | e :: rest =>
    let (st1, cont) := handlerStep st e
    if cont then handlerLoop st1 rest else st1

/-- `_message_handler` in full: the receive loop followed by its cleanup. -/
def messageHandler (st : WSState) (events : List RecvEvent) : WSState :=
  handlerCleanup (handlerLoop st events)

/-- Result of the pre-suspension phase of `send_request`: the updated
state, the (possibly mutated) request dict as transmitted, and the id the
future was registered under. -/
structure IssueResult where
  st : WSState
  sent : JVal
  rid : Int

/-- `send_request`, lines 194–212 (everything before
`await asyncio.wait_for`): reject when not connected; increment the
counter; insert the generated id into the caller's dict only when the
`"id"` key is absent (the dict is transmitted as mutated — `sent` IS the
caller's dict after the call); register a fresh pending future under the
counter value. -/
def sendRequestIssue (st : WSState) (request : JVal) :
    Except PyError IssueResult :=
  if st.websocket.isSome ∧ st.running then
    let request_id := st.request_counter + 1
    let request1 :=
      match request.getKey "id" with
      | some _ => request
      | none =>
        match request with
        | .obj fields => JVal.obj (setKeyList fields "id" (.num request_id))
        | other => other
    .ok { st := { st with
                  request_counter := request_id
                  pending := request_id :: st.pending
                  futures := (request_id, .pending) :: st.futures }
          sent := request1
          rid := request_id }
  else .error (.apiError "WebSocket not connected")

/-- How the suspension `await asyncio.wait_for(future, timeout)` ends:
the receive loop resolved the future; the timeout elapsed; or the calling
task was cancelled from outside. -/
inductive WaitOutcome where
  | resolved : WaitOutcome
  | timedOut : WaitOutcome
  | cancelled : WaitOutcome

/-- `send_request`, lines 215–229 (the wait and the handlers below it),
resumed with the outcome of the suspension for the future registered
under `rid`.

* `timedOut`: `wait_for` cancels the inner future and raises
  `asyncio.TimeoutError`; the handler pops the table entry and raises
  `APIError(f"Request {request_id} timed out")`.
* `cancelled`: `asyncio.CancelledError` propagates out of the `await`;
  on Python ≥ 3.8 it is a `BaseException`, so `except Exception` does
  NOT run and the table entry is not popped.
* `resolved` with a result: the error-type check (lines 218–220) either
  raises `APIError("API Error: " + payload)` — in which case the
  `except Exception` clause pops the (already absent) entry — or returns
  the whole `data` object.
* `resolved` with a stored exception: the `await` re-raises it; if it is
  an `Exception` the handler pops the entry before re-raising. -/
def sendRequestAwait (st : WSState) (rid : Int) (out : WaitOutcome) :
    WSState × Except PyError JVal :=
  match out with
  | .timedOut =>
    ({ st with pending := removeId st.pending rid
               futures := setFut st.futures rid .cancelled },
     .error (.apiError ("Request " ++ toString rid ++ " timed out")))
  | .cancelled =>
    ({ st with futures := setFut st.futures rid .cancelled },
     .error .cancelledError)
  | .resolved =>
    match lookupFut st.futures rid with
    | some (.result v) =>
      let resp := v.getKeyD "response" (.obj [])
      match resp.getKey "type" with
      | some (.str t) =>
        if t = "error" then
          let error_msg := resp.getKeyD "payload" (.str "Unknown error")
          ({ st with pending := removeId st.pending rid },
           .error (.apiError ("API Error: " ++ error_msg.pyStr)))
        else (st, .ok v)
      | _ => (st, .ok v)
    | some (.exc e) =>
      if e.isException then
        ({ st with pending := removeId st.pending rid }, .error e)
      else (st, .error e)
    | _ =>
      -- Unreachable schedule: a `resolved` outcome only occurs after the
      -- receive loop or the cleanup has set the future.
      (st, .error .cancelledError)

/-- The subscribe control frame built by
`HyperliquidClient.subscribe_to_channel` (lines 392–400): `params`, when
truthy (Python: not `None` and not the empty dict), is merged into the
`subscription` object by `dict.update`. -/
def mkSubscriptionFrame (method channel : String)
    (params : Option (List (String × JVal))) : JVal :=
  let base : List (String × JVal) := [("type", .str channel)]
  let merged :=
    match params with
    | some ps => if ps.isEmpty then base else updateObj base ps
    | none => base
  .obj [("method", .str method), ("subscription", .obj merged)]

/-- `HyperliquidClient.subscribe_to_channel` (lines 380–403): guard on the
websocket attribute, transmit the subscribe frame, log.  No field of the
client (or of its `ws_client`) is assigned: the returned state is the
input state, and the second component is the transmitted frame. -/
def subscribe_to_channel (st : WSState) (channel : String)
    (params : Option (List (String × JVal))) :
    Except PyError (WSState × JVal) :=
  if st.websocket.isSome then
    .ok (st, mkSubscriptionFrame "subscribe" channel params)
  else .error (.apiError "WebSocket not connected")

/-- `HyperliquidClient.unsubscribe_from_channel` (lines 405–429): same
shape as subscribe with the `"unsubscribe"` method; again no client state
is assigned. -/
def unsubscribe_from_channel (st : WSState) (channel : String)
    (params : Option (List (String × JVal))) :
    Except PyError (WSState × JVal) :=
  if st.websocket.isSome then
    .ok (st, mkSubscriptionFrame "unsubscribe" channel params)
  else .error (.apiError "WebSocket not connected")

/-- The request envelope built by `HyperliquidClient.send_ws_info_request`
(lines 349–355): no `"id"` key, so `send_request` will insert one. -/
def mkInfoRequest (payload : JVal) : JVal :=
  .obj [("method", .str "post"),
        ("request", .obj [("type", .str "info"), ("payload", payload)])]

/-- The result post-processing of `send_ws_info_request` (line 357):
`response.get("response", {}).get("payload", {})`, applied to whatever
`send_request` produced (errors propagate unchanged). -/
def wsInfoExtract (r : Except PyError JVal) : Except PyError JVal :=
  match r with
  | .ok v => .ok ((v.getKeyD "response" (.obj [])).getKeyD "payload" (.obj []))
  | .error e => .error e

/-- The `data` object of an inbound reply envelope (spec §6:
`{ id: <int>, response: { type: <string>, payload: <...> } }`).  The id
slot is a general `JVal` so that replies echoing a caller-supplied
non-counter id can be stated. -/
def postData (idv : JVal) (ty : String) (payload : JVal) : JVal :=
  .obj [("id", idv),
        ("response", .obj [("type", .str ty), ("payload", payload)])]

/-- An inbound reply frame on the `"post"` channel. -/
def postFrame (idv : JVal) (ty : String) (payload : JVal) : JVal :=
  .obj [("channel", .str "post"), ("data", postData idv ty payload)]

/-- Run the receive loop body over one reply frame per id in `order`,
where the frame for id `i` carries response type `ty i` and payload
`p i`.  Used to state arrival-order independence. -/
def foldReplies (ty : Int → String) (p : Int → JVal) (st : WSState)
    (order : List Int) : WSState :=
  order.foldl (fun s i => processMessage s (.parsed (postFrame (.num i) (ty i) (p i)))) st

/-- The correlation invariant: the counter is nonnegative, table keys are
unique, and every live key was issued by the counter (positive and at
most the current counter) — so a fresh counter value is never a live key. -/
def ReqInv (st : WSState) : Prop :=
  0 ≤ st.request_counter ∧ st.pending.Nodup ∧
    ∀ i ∈ st.pending, 1 ≤ i ∧ i ≤ st.request_counter

/-- A connected client as produced by `__init__` plus a successful
`connect` with the default URL, testnet environment and no API key
(used to instantiate the theorems on concrete runs). -/
def exampleClient : WSState :=
  (WSState.init "wss://api.hypereth.io/v1/hl/ws" "testnet" none).connect

/-- `exampleClient` after the pre-suspension phase of one `send_request`:
counter 1, request id 1 live with a pending future. -/
def exampleClientAfterIssue : WSState :=
  { exampleClient with
    request_counter := 1, pending := [1], futures := [(1, .pending)] }

/-- `exampleClient` after the pre-suspension phases of two concurrent
`send_request` calls: ids 1 and 2 live, both futures pending (the table
lists the most recent insertion first). -/
def exampleClientTwoPending : WSState :=
  { exampleClient with
    request_counter := 2, pending := [2, 1]
    futures := [(2, .pending), (1, .pending)] }

/-! ### Helper lemmas about the table and future-heap primitives -/

theorem lookupFut_setFut_self (fs : FutureHeap) (n : Int) (f g : FutureState)
    (h : lookupFut fs n = some g) : lookupFut (setFut fs n f) n = some f := by
  induction fs with
  | nil => simp [lookupFut, List.lookup] at h
  | cons kv rest ih =>
    obtain ⟨k, f0⟩ := kv
    by_cases hk : k = n
    · subst hk
      simp [lookupFut, setFut, List.lookup]
    · simp only [lookupFut, setFut, if_neg hk, List.lookup] at h ⊢
      have hbeq : (n == k) = false := by
        simp [beq_eq_false_iff_ne]
        exact fun hnk => hk hnk.symm
      rw [hbeq] at h ⊢
      exact ih h

theorem lookupFut_setFut_ne (fs : FutureHeap) (n m : Int) (f : FutureState)
    (h : m ≠ n) : lookupFut (setFut fs n f) m = lookupFut fs m := by
  induction fs with
  | nil => simp [lookupFut, setFut]
  | cons kv rest ih =>
    obtain ⟨k, f0⟩ := kv
    by_cases hk : k = n
    · subst hk
      have hbeq : (m == k) = false := by simp [beq_eq_false_iff_ne]; exact h
      simp [lookupFut, setFut, List.lookup, hbeq]
    · simp only [setFut, if_neg hk]
      simp only [lookupFut, List.lookup] at ih ⊢
      cases hmk : (m == k) with
      | true => rfl
      | false => exact ih

theorem mem_removeId_iff_of_ne (l : List Int) (n m : Int) (h : m ≠ n) :
    m ∈ removeId l n ↔ m ∈ l := by
  induction l with
  | nil => simp [removeId]
  | cons k rest ih =>
    by_cases hk : k = n
    · subst hk
      simp [removeId, ih]
      intro hmk
      exact absurd hmk h
    · simp [removeId, if_neg hk, ih]

theorem removeId_subset (l : List Int) (n m : Int) (h : m ∈ removeId l n) :
    m ∈ l := by
  induction l with
  | nil => simp [removeId] at h
  | cons k rest ih =>
    by_cases hk : k = n
    · subst hk
      simp [removeId] at h
      simp [h]
    · simp [removeId, if_neg hk] at h
      rcases h with h | h
      · simp [h]
      · simp [ih h]

theorem not_mem_removeId_self (l : List Int) (n : Int) (hnd : l.Nodup) :
    n ∉ removeId l n := by
  induction l with
  | nil => simp [removeId]
  | cons k rest ih =>
    rcases List.nodup_cons.mp hnd with ⟨hk, hrest⟩
    by_cases hkn : k = n
    · subst hkn
      simpa [removeId] using hk
    · simp [removeId, if_neg hkn]
      refine ⟨fun hnk => hkn hnk.symm, ih hrest⟩

theorem removeId_nodup (l : List Int) (n : Int) (hnd : l.Nodup) :
    (removeId l n).Nodup := by
  induction l with
  | nil => simp [removeId]
  | cons k rest ih =>
    rcases List.nodup_cons.mp hnd with ⟨hk, hrest⟩
    by_cases hkn : k = n
    · subst hkn
      simpa [removeId] using hrest
    · rw [removeId, if_neg hkn]
      exact List.nodup_cons.mpr
        ⟨fun hmem => hk (removeId_subset rest n k hmem), ih hrest⟩

theorem lookup_setKeyList_self (fields : List (String × JVal)) (k : String)
    (v : JVal) : List.lookup k (setKeyList fields k v) = some v := by
  induction fields with
  | nil => simp [setKeyList, List.lookup]
  | cons kv rest ih =>
    obtain ⟨k0, v0⟩ := kv
    by_cases hk : k0 = k
    · subst hk
      simp [setKeyList, List.lookup]
    · have hbeq : (k == k0) = false := by
        simp [beq_eq_false_iff_ne]
        exact fun hkk => hk hkk.symm
      simp [setKeyList, if_neg hk, List.lookup, hbeq, ih]

theorem lookup_setKeyList_ne (fields : List (String × JVal)) (k k2 : String)
    (v : JVal) (h : k2 ≠ k) :
    List.lookup k2 (setKeyList fields k v) = List.lookup k2 fields := by
  induction fields with
  | nil =>
    have hbeq : (k2 == k) = false := by simp [beq_eq_false_iff_ne]; exact h
    simp [setKeyList, List.lookup, hbeq]
  | cons kv rest ih =>
    obtain ⟨k0, v0⟩ := kv
    by_cases hk : k0 = k
    · subst hk
      have hbeq : (k2 == k0) = false := by simp [beq_eq_false_iff_ne]; exact h
      simp [setKeyList, List.lookup, hbeq]
    · simp only [setKeyList, if_neg hk, List.lookup]
      cases hk2 : (k2 == k0) with
      | true => rfl
      | false => exact ih

/-! ### Characterization of the receive loop on reply frames -/

theorem processMessage_malformed (st : WSState) (s : String) :
    processMessage st (.malformed s) = st := rfl

theorem postFrame_channel (idv : JVal) (ty : String) (p : JVal) :
    (postFrame idv ty p).getKey "channel" = some (.str "post") := rfl

theorem postData_getId (idv : JVal) (ty : String) (p : JVal) :
    (postData idv ty p).getKey "id" = some idv := rfl

theorem processMessage_postFrame (st : WSState) (idv : JVal) (ty : String)
    (p : JVal) :
    processMessage st (.parsed (postFrame idv ty p)) =
      resolvePost st (postFrame idv ty p) := by
  simp [processMessage, postFrame, JVal.getKey, List.lookup]

theorem resolvePost_postFrame_mem (st : WSState) (x : Int) (ty : String)
    (p : JVal) (hx : x ∈ st.pending) :
    resolvePost st (postFrame (.num x) ty p) =
      { st with
        pending := removeId st.pending x
        futures :=
          match lookupFut st.futures x with
          | some .pending => setFut st.futures x (.result (postData (.num x) ty p))
          | _ => st.futures } := by
  simp [resolvePost, postFrame, postData, JVal.getKey, JVal.getKeyD, List.lookup, hx]

theorem processMessage_postFrame_hit (st : WSState) (x : Int) (ty : String)
    (p : JVal) (hx : x ∈ st.pending)
    (hfut : lookupFut st.futures x = some .pending) :
    processMessage st (.parsed (postFrame (.num x) ty p)) =
      { st with
        pending := removeId st.pending x
        futures := setFut st.futures x (.result (postData (.num x) ty p)) } := by
  rw [processMessage_postFrame, resolvePost_postFrame_mem st x ty p hx, hfut]

theorem processMessage_postFrame_unknown (st : WSState) (x : Int)
    (ty : String) (p : JVal) (hx : x ∉ st.pending) :
    processMessage st (.parsed (postFrame (.num x) ty p)) = st := by
  rw [processMessage_postFrame]
  simp [resolvePost, postFrame, postData, JVal.getKey, JVal.getKeyD, List.lookup, hx]

theorem processMessage_postFrame_notnum (st : WSState) (idv : JVal)
    (ty : String) (p : JVal) (h : ∀ x : Int, idv ≠ .num x) :
    processMessage st (.parsed (postFrame idv ty p)) = st := by
  rw [processMessage_postFrame]
  cases idv with
  | num x => exact absurd rfl (h x)
  | null => rfl
  | bool b => rfl
  | str s => rfl
  | arr l => rfl
  | obj fs => rfl

theorem processMessage_postFrame_futures_ne (st : WSState) (idv : JVal)
    (ty : String) (p : JVal) (j : Int) (h : idv ≠ .num j) :
    lookupFut (processMessage st (.parsed (postFrame idv ty p))).futures j =
      lookupFut st.futures j := by
  cases idv with
  | num x =>
    have hxj : j ≠ x := fun hx => h (by rw [hx])
    by_cases hmem : x ∈ st.pending
    · rw [processMessage_postFrame, resolvePost_postFrame_mem st x ty p hmem]
      cases hfut : lookupFut st.futures x with
      | none => rfl
      | some f =>
        cases f with
        | pending => exact lookupFut_setFut_ne st.futures x j _ hxj
        | result v => rfl
        | exc e => rfl
        | cancelled => rfl
    · rw [processMessage_postFrame_unknown st x ty p hmem]
  | null => rw [processMessage_postFrame_notnum st _ ty p (fun x => by intro hc; cases hc)]
  | bool b => rw [processMessage_postFrame_notnum st _ ty p (fun x => by intro hc; cases hc)]
  | str s => rw [processMessage_postFrame_notnum st _ ty p (fun x => by intro hc; cases hc)]
  | arr l => rw [processMessage_postFrame_notnum st _ ty p (fun x => by intro hc; cases hc)]
  | obj fs => rw [processMessage_postFrame_notnum st _ ty p (fun x => by intro hc; cases hc)]

theorem processMessage_postFrame_pending_iff (st : WSState) (idv : JVal)
    (ty : String) (p : JVal) (j : Int) (h : idv ≠ .num j) :
    (j ∈ (processMessage st (.parsed (postFrame idv ty p))).pending ↔
      j ∈ st.pending) := by
  cases idv with
  | num x =>
    have hxj : j ≠ x := fun hx => h (by rw [hx])
    by_cases hmem : x ∈ st.pending
    · rw [processMessage_postFrame, resolvePost_postFrame_mem st x ty p hmem]
      exact mem_removeId_iff_of_ne st.pending x j hxj
    · rw [processMessage_postFrame_unknown st x ty p hmem]
  | null => rw [processMessage_postFrame_notnum st _ ty p (fun x => by intro hc; cases hc)]
  | bool b => rw [processMessage_postFrame_notnum st _ ty p (fun x => by intro hc; cases hc)]
  | str s => rw [processMessage_postFrame_notnum st _ ty p (fun x => by intro hc; cases hc)]
  | arr l => rw [processMessage_postFrame_notnum st _ ty p (fun x => by intro hc; cases hc)]
  | obj fs => rw [processMessage_postFrame_notnum st _ ty p (fun x => by intro hc; cases hc)]

/-! ### Processing a batch of replies in arbitrary arrival order -/

theorem foldReplies_cons (ty : Int → String) (p : Int → JVal) (st : WSState)
    (a : Int) (t : List Int) :
    foldReplies ty p st (a :: t) =
      foldReplies ty p
        (processMessage st (.parsed (postFrame (.num a) (ty a) (p a)))) t := rfl

theorem foldReplies_futures_ne (ty : Int → String) (p : Int → JVal)
    (order : List Int) (st : WSState) (j : Int) (h : ∀ i ∈ order, i ≠ j) :
    lookupFut (foldReplies ty p st order).futures j = lookupFut st.futures j := by
  induction order generalizing st with
  | nil => rfl
  | cons a t ih =>
    rw [foldReplies_cons]
    rw [ih _ fun i hi => h i (List.mem_cons_of_mem a hi)]
    apply processMessage_postFrame_futures_ne
    intro hc
    injection hc with hc2
    exact h a (List.mem_cons_self a t) hc2

theorem foldReplies_resolves (ty : Int → String) (p : Int → JVal)
    (order : List Int) (st : WSState) (hnd : order.Nodup)
    (hin : ∀ i ∈ order, i ∈ st.pending ∧ lookupFut st.futures i = some .pending) :
    ∀ i ∈ order,
      lookupFut (foldReplies ty p st order).futures i =
        some (.result (postData (.num i) (ty i) (p i))) := by
  induction order generalizing st with
  | nil => intro i hi; cases hi
  | cons a t ih =>
    obtain ⟨ha_mem, ha_fut⟩ := hin a (List.mem_cons_self a t)
    rcases List.nodup_cons.mp hnd with ⟨hat, hndt⟩
    have hstep := processMessage_postFrame_hit st a (ty a) (p a) ha_mem ha_fut
    intro i hi
    rw [foldReplies_cons]
    rcases List.mem_cons.mp hi with rfl | hit
    · have hne : ∀ x ∈ t, x ≠ i := fun x hx hxi => hat (hxi ▸ hx)
      rw [foldReplies_futures_ne ty p t _ i hne, hstep]
      exact lookupFut_setFut_self st.futures i _ _ ha_fut
    · refine ih _ hndt ?_ i hit
      intro j hj
      have hja : j ≠ a := fun hc => hat (hc ▸ hj)
      obtain ⟨hj_mem, hj_fut⟩ := hin j (List.mem_cons_of_mem a hj)
      rw [hstep]
      exact ⟨(mem_removeId_iff_of_ne st.pending a j hja).mpr hj_mem,
             by rw [lookupFut_setFut_ne st.futures a j _ hja]; exact hj_fut⟩

/-! ### Handler shutdown lemmas -/

theorem handlerLoop_not_running (st : WSState) (h : st.running = false)
    (evts : List RecvEvent) : handlerLoop st evts = st := by
  cases evts with
  | nil => rfl
  | cons e rest => simp [handlerLoop, handlerStep, h]

theorem handlerCleanup_pending (st : WSState) :
    (handlerCleanup st).pending = [] := rfl

theorem lookupFut_failFuture_ne (fs : FutureHeap) (a rid : Int)
    (h : rid ≠ a) : lookupFut (failFuture fs a) rid = lookupFut fs rid := by
  unfold failFuture
  cases hfa : lookupFut fs a with
  | none => rfl
  | some f =>
    cases f with
    | pending => exact lookupFut_setFut_ne fs a rid _ h
    | result v => rfl
    | exc e => rfl
    | cancelled => rfl

theorem lookupFut_failFuture_self (fs : FutureHeap) (rid : Int)
    (h : lookupFut fs rid = some .pending) :
    lookupFut (failFuture fs rid) rid =
      some (.exc (.exception "Connection closed")) := by
  unfold failFuture
  rw [h]
  exact lookupFut_setFut_self fs rid _ _ h

theorem foldFail_preserves_exc (l : List Int) (fs : FutureHeap) (rid : Int)
    (h : lookupFut fs rid = some (.exc (.exception "Connection closed"))) :
    lookupFut (l.foldl failFuture fs) rid =
      some (.exc (.exception "Connection closed")) := by
  induction l generalizing fs with
  | nil => exact h
  | cons a t ih =>
    apply ih
    by_cases ha : rid = a
    · subst ha
      unfold failFuture
      rw [h]
      exact h
    · rw [lookupFut_failFuture_ne fs a rid ha]
      exact h

theorem foldFail_sets (l : List Int) (fs : FutureHeap) (rid : Int)
    (hmem : rid ∈ l) (h : lookupFut fs rid = some .pending) :
    lookupFut (l.foldl failFuture fs) rid =
      some (.exc (.exception "Connection closed")) := by
  induction l generalizing fs with
  | nil => cases hmem
  | cons a t ih =>
    by_cases ha : rid = a
    · subst ha
      exact foldFail_preserves_exc t _ rid (lookupFut_failFuture_self fs rid h)
    · rcases List.mem_cons.mp hmem with hc | hmt
      · exact absurd hc ha
      · exact ih _ hmt (by rw [lookupFut_failFuture_ne fs a rid ha]; exact h)

/-! ### Generic preservation lemmas (receive loop and await touch the
table only by popping entries, and never touch the counter) -/

theorem resolvePost_counter (st : WSState) (data : JVal) :
    (resolvePost st data).request_counter = st.request_counter := by
  simp only [resolvePost]
  split
  · split
    · rfl
    · rfl
  · rfl

theorem resolvePost_pending_subset (st : WSState) (data : JVal) (j : Int)
    (h : j ∈ (resolvePost st data).pending) : j ∈ st.pending := by
  simp only [resolvePost] at h
  split at h
  · split at h
    · exact removeId_subset st.pending _ j h
    · exact h
  · exact h

theorem resolvePost_pending_nodup (st : WSState) (data : JVal)
    (hnd : st.pending.Nodup) : (resolvePost st data).pending.Nodup := by
  simp only [resolvePost]
  split
  · split
    · exact removeId_nodup st.pending _ hnd
    · exact hnd
  · exact hnd

theorem processMessage_counter (st : WSState) (m : RawMsg) :
    (processMessage st m).request_counter = st.request_counter := by
  unfold processMessage
  split
  · rfl
  · split
    · split
      · exact resolvePost_counter st _
      · rfl
    · rfl

theorem processMessage_pending_subset (st : WSState) (m : RawMsg) (j : Int)
    (h : j ∈ (processMessage st m).pending) : j ∈ st.pending := by
  unfold processMessage at h
  split at h
  · exact h
  · split at h
    · split at h
      · exact resolvePost_pending_subset st _ j h
      · exact h
    · exact h

theorem processMessage_pending_nodup (st : WSState) (m : RawMsg)
    (hnd : st.pending.Nodup) : (processMessage st m).pending.Nodup := by
  unfold processMessage
  split
  · exact hnd
  · split
    · split
      · exact resolvePost_pending_nodup st _ hnd
      · exact hnd
    · exact hnd

theorem reqInv_processMessage (st : WSState) (m : RawMsg) (h : ReqInv st) :
    ReqInv (processMessage st m) := by
  obtain ⟨hc, hnd, hb⟩ := h
  refine ⟨?_, processMessage_pending_nodup st m hnd, ?_⟩
  · rw [processMessage_counter]; exact hc
  · intro i hi
    rw [processMessage_counter]
    exact hb i (processMessage_pending_subset st m i hi)

theorem sendRequestAwait_counter (st : WSState) (rid : Int) (out : WaitOutcome) :
    (sendRequestAwait st rid out).1.request_counter = st.request_counter := by
  cases out with
  | timedOut => rfl
  | cancelled => rfl
  | resolved =>
    simp only [sendRequestAwait]
    split
    · split
      · split
        · rfl
        · rfl
      · rfl
    · split
      · rfl
      · rfl
    · rfl

theorem sendRequestAwait_pending_subset (st : WSState) (rid : Int)
    (out : WaitOutcome) (j : Int)
    (h : j ∈ (sendRequestAwait st rid out).1.pending) : j ∈ st.pending := by
  cases out with
  | timedOut => exact removeId_subset st.pending rid j h
  | cancelled => exact h
  | resolved =>
    simp only [sendRequestAwait] at h
    split at h
    · split at h
      · split at h
        · exact removeId_subset st.pending rid j h
        · exact h
      · exact h
    · split at h
      · exact removeId_subset st.pending rid j h
      · exact h
    · exact h

theorem sendRequestAwait_pending_nodup (st : WSState) (rid : Int)
    (out : WaitOutcome) (hnd : st.pending.Nodup) :
    (sendRequestAwait st rid out).1.pending.Nodup := by
  cases out with
  | timedOut => exact removeId_nodup st.pending rid hnd
  | cancelled => exact hnd
  | resolved =>
    simp only [sendRequestAwait]
    split
    · split
      · split
        · exact removeId_nodup st.pending rid hnd
        · exact hnd
      · exact hnd
    · split
      · exact removeId_nodup st.pending rid hnd
      · exact hnd
    · exact hnd

theorem reqInv_sendRequestAwait (st : WSState) (rid : Int) (out : WaitOutcome)
    (h : ReqInv st) : ReqInv (sendRequestAwait st rid out).1 := by
  obtain ⟨hc, hnd, hb⟩ := h
  refine ⟨?_, sendRequestAwait_pending_nodup st rid out hnd, ?_⟩
  · rw [sendRequestAwait_counter]; exact hc
  · intro i hi
    rw [sendRequestAwait_counter]
    exact hb i (sendRequestAwait_pending_subset st rid out i hi)

/-- Inversion of the pre-suspension phase: a successful
`sendRequestIssue` means the client was connected, the counter advanced
by one, the new id is the new counter value, the future was registered
under it, and the transmitted dict is the input dict with the id
inserted exactly when it was absent. -/
theorem sendRequestIssue_ok (st : WSState) (req : JVal) (r : IssueResult)
    (h : sendRequestIssue st req = .ok r) :
    (st.websocket.isSome ∧ st.running) ∧
    r.rid = st.request_counter + 1 ∧
    r.st = { st with
             request_counter := st.request_counter + 1
             pending := (st.request_counter + 1) :: st.pending
             futures := (st.request_counter + 1, .pending) :: st.futures } ∧
    (∀ v, req.getKey "id" = some v → r.sent = req) ∧
    (req.getKey "id" = none → ∀ fields, req = .obj fields →
      r.sent = .obj (setKeyList fields "id" (.num (st.request_counter + 1)))) := by
  by_cases hc : st.websocket.isSome ∧ st.running
  · rw [sendRequestIssue, if_pos hc] at h
    injection h with h1
    subst h1
    refine ⟨hc, rfl, rfl, ?_, ?_⟩
    · intro v hv
      simp only [hv]
    · intro h0 fields hf
      subst hf
      simp only [h0]
  · rw [sendRequestIssue, if_neg hc] at h
    cases h

/-! ### Disconnect lemmas -/

theorem disconnect_running (st : WSState) : st.disconnect.running = false := by
  simp only [WSState.disconnect]
  split <;> rfl

theorem disconnect_pending (st : WSState) : st.disconnect.pending = st.pending := by
  simp only [WSState.disconnect]
  split <;> rfl

theorem disconnect_futures (st : WSState) : st.disconnect.futures = st.futures := by
  simp only [WSState.disconnect]
  split <;> rfl

theorem disconnect_idem (st : WSState) : st.disconnect.disconnect = st.disconnect := by
  cases hw : st.websocket <;> simp [WSState.disconnect, hw]

/-! ### Evaluation of the reply envelope accessors and of the await -/

theorem postData_respType (idv : JVal) (ty : String) (p : JVal) :
    ((postData idv ty p).getKeyD "response" (.obj [])).getKey "type" =
      some (.str ty) := rfl

theorem postData_respPayload (idv : JVal) (ty : String) (p : JVal) :
    ((postData idv ty p).getKeyD "response" (.obj [])).getKeyD "payload"
        (.str "Unknown error") = p := rfl

theorem wsInfoExtract_postData (idv : JVal) (ty : String) (p : JVal) :
    wsInfoExtract (.ok (postData idv ty p)) = .ok p := rfl

/-- A resolved await whose future carries a reply whose response type is
not `"error"` returns the whole `data` object and leaves the state
untouched (the receive loop already popped the table entry). -/
theorem sendRequestAwait_resolved_ok (st : WSState) (rid : Int) (idv : JVal)
    (ty : String) (p : JVal)
    (hres : lookupFut st.futures rid = some (.result (postData idv ty p)))
    (hty : ty ≠ "error") :
    sendRequestAwait st rid .resolved = (st, .ok (postData idv ty p)) := by
  simp only [sendRequestAwait, hres, postData_respType]
  rw [if_neg hty]

/-- A resolved await whose future carries an error-tagged reply raises
`APIError("API Error: " + payload)` (and pops the — already absent —
table entry via the `except Exception` clause). -/
theorem sendRequestAwait_resolved_error (st : WSState) (rid : Int)
    (idv p : JVal)
    (hres : lookupFut st.futures rid = some (.result (postData idv "error" p))) :
    sendRequestAwait st rid .resolved =
      ({ st with pending := removeId st.pending rid },
       .error (.apiError ("API Error: " ++ p.pyStr))) := by
  simp only [sendRequestAwait, hres, postData_respType, postData_respPayload]
  simp

/-! ### The claims -/

/-- C1: For every set of concurrent send-and-await-reply calls whose ids
are all pending (distinct ids, futures unresolved), and for reply frames
arriving in ANY permutation `order` of those ids, the receive loop
resolves each caller's future with exactly the reply data carrying that
caller's own id, and that caller's await then returns that data — so
each call gets its own payload regardless of arrival order. -/
theorem c1_permuted_replies_resolve_matching_callers
    (ty : Int → String) (p : Int → JVal) (st : WSState) (order : List Int)
    (hperm : order.Perm st.pending) (hnd : st.pending.Nodup)
    (hfut : ∀ i ∈ st.pending, lookupFut st.futures i = some .pending)
    (hty : ∀ i, ty i ≠ "error") :
    ∀ i ∈ st.pending,
      lookupFut (foldReplies ty p st order).futures i =
        some (.result (postData (.num i) (ty i) (p i))) ∧
      (sendRequestAwait (foldReplies ty p st order) i .resolved).2 =
        .ok (postData (.num i) (ty i) (p i)) := by
  have hndo : order.Nodup := hperm.nodup_iff.mpr hnd
  have hin : ∀ i ∈ order,
      i ∈ st.pending ∧ lookupFut st.futures i = some .pending := by
    intro i hi
    have hmem := hperm.mem_iff.mp hi
    exact ⟨hmem, hfut i hmem⟩
  intro i hi
  have hio : i ∈ order := hperm.mem_iff.mpr hi
  have hres := foldReplies_resolves ty p order st hndo hin i hio
  exact ⟨hres, by
    rw [sendRequestAwait_resolved_ok _ i (.num i) (ty i) (p i) hres (hty i)]⟩

/-- C1 witness: two concurrent calls with ids 1 and 2; the replies arrive
as id 2 first, then id 1; each caller still receives its own payload. -/
theorem c1_witness :
    (lookupFut (foldReplies (fun _ => "info") (fun i => .str (toString i))
        exampleClientTwoPending [2, 1]).futures 1 =
      some (.result (postData (.num 1) "info" (.str (toString (1 : Int))))) ∧
    (sendRequestAwait (foldReplies (fun _ => "info") (fun i => .str (toString i))
        exampleClientTwoPending [2, 1]) 1 .resolved).2 =
      .ok (postData (.num 1) "info" (.str (toString (1 : Int))))) ∧
    (lookupFut (foldReplies (fun _ => "info") (fun i => .str (toString i))
        exampleClientTwoPending [2, 1]).futures 2 =
      some (.result (postData (.num 2) "info" (.str (toString (2 : Int))))) ∧
    (sendRequestAwait (foldReplies (fun _ => "info") (fun i => .str (toString i))
        exampleClientTwoPending [2, 1]) 2 .resolved).2 =
      .ok (postData (.num 2) "info" (.str (toString (2 : Int))))) := by
  have h := c1_permuted_replies_resolve_matching_callers
    (fun _ => "info") (fun i => .str (toString i)) exampleClientTwoPending [2, 1]
    (by decide) (by decide)
    (by intro i hi; fin_cases hi <;> rfl)
    (by intro i; show "info" ≠ "error"; decide)
  exact ⟨h 1 (by decide), h 2 (by decide)⟩

/-- C2 counterexample: on a concrete disconnect with ids 1 and 2 pending,
the waiters are failed with a BARE `Exception("Connection closed")`
(websocket_client.py line 113 instantiates the `Exception` base class),
not with any `ConnectionClosedError` as the claim states — the SDK
defines no such type and never stores the typed
`websockets.exceptions.ConnectionClosedError` in a future, so callers
cannot branch on a connection-closed type. -/
theorem c2_counterexample :
    lookupFut (messageHandler exampleClientTwoPending.disconnect []).futures 1 =
      some (.exc (.exception "Connection closed")) ∧
    ¬ lookupFut (messageHandler exampleClientTwoPending.disconnect []).futures 1 =
      some (.exc .connectionClosedError) := by
  refine ⟨rfl, ?_⟩
  intro hcontra
  have h2 : some (FutureState.exc (PyError.exception "Connection closed")) =
      some (FutureState.exc PyError.connectionClosedError) := by
    calc some (FutureState.exc (PyError.exception "Connection closed"))
        = lookupFut
            (messageHandler exampleClientTwoPending.disconnect []).futures 1 := rfl
      _ = some (FutureState.exc PyError.connectionClosedError) := hcontra
  injection h2 with h3
  injection h3 with h4
  exact PyError.noConfusion h4

/-- C2 (amended): Calling `disconnect()` while requests are pending leads
(through the receive loop's cleanup, which the closed connection
triggers) to every still-pending waiter being failed with a bare
`Exception("Connection closed")` — not a typed `ConnectionClosedError`,
which the SDK does not define — and to an empty pending table; moreover
`disconnect` is idempotent and, when no connection was ever opened, only
clears the running flag — it cannot raise. -/
theorem c2_disconnect_fails_waiters_with_bare_exception
    (st : WSState) (events : List RecvEvent)
    (hfut : ∀ i ∈ st.pending, lookupFut st.futures i = some .pending) :
    (messageHandler st.disconnect events).pending = [] ∧
    (∀ i ∈ st.pending,
      lookupFut (messageHandler st.disconnect events).futures i =
        some (.exc (.exception "Connection closed"))) ∧
    st.disconnect.disconnect = st.disconnect ∧
    (st.websocket = none → st.disconnect = { st with running := false }) := by
  have hloop : handlerLoop st.disconnect events = st.disconnect :=
    handlerLoop_not_running _ (disconnect_running st) events
  refine ⟨handlerCleanup_pending _, ?_, disconnect_idem st, ?_⟩
  · intro i hi
    show lookupFut (handlerCleanup (handlerLoop st.disconnect events)).futures i = _
    rw [hloop]
    show lookupFut
      (st.disconnect.pending.foldl failFuture st.disconnect.futures) i = _
    rw [disconnect_pending, disconnect_futures]
    exact foldFail_sets st.pending st.futures i hi (hfut i hi)
  · intro hw
    simp [WSState.disconnect, hw]

/-- C2 witness: disconnecting the two-pending client fails both waiters
with the bare `Exception("Connection closed")` and empties the table;
disconnect twice equals disconnect once. -/
theorem c2_witness :
    (messageHandler exampleClientTwoPending.disconnect []).pending = [] ∧
    lookupFut (messageHandler exampleClientTwoPending.disconnect []).futures 1 =
      some (.exc (.exception "Connection closed")) ∧
    lookupFut (messageHandler exampleClientTwoPending.disconnect []).futures 2 =
      some (.exc (.exception "Connection closed")) ∧
    exampleClientTwoPending.disconnect.disconnect =
      exampleClientTwoPending.disconnect := by
  have h := c2_disconnect_fails_waiters_with_bare_exception
    exampleClientTwoPending []
    (by intro i hi; fin_cases hi <;> rfl)
  exact ⟨h.1, h.2.1 1 (by decide), h.2.1 2 (by decide), h.2.2.1⟩

/-- C3 counterexample: a concrete issued request (id 1 on a fresh
connected client) whose wait times out fails with
`APIError("Request 1 timed out")`, which is not Python's `TimeoutError`
as the claim states — `asyncio.TimeoutError` is caught on line 224 and
replaced by an `APIError`. -/
theorem c3_counterexample :
    sendRequestIssue exampleClient (.obj [("method", .str "post")]) =
      .ok { st := exampleClientAfterIssue
            sent := .obj [("method", .str "post"), ("id", .num 1)]
            rid := 1 } ∧
    (sendRequestAwait exampleClientAfterIssue 1 .timedOut).2 =
      .error (.apiError "Request 1 timed out") ∧
    ¬ (sendRequestAwait exampleClientAfterIssue 1 .timedOut).2 =
      .error .timeoutError := by
  refine ⟨rfl, rfl, ?_⟩
  intro hcontra
  have h2 : (Except.error (PyError.apiError "Request 1 timed out") :
      Except PyError JVal) = Except.error PyError.timeoutError := by
    calc (Except.error (PyError.apiError "Request 1 timed out") :
            Except PyError JVal)
        = (sendRequestAwait exampleClientAfterIssue 1 .timedOut).2 := rfl
      _ = Except.error PyError.timeoutError := hcontra
  injection h2 with h3
  exact PyError.noConfusion h3

/-- C3 (amended): when the timeout elapses before any matching reply,
the call removes its pending entry and raises an `APIError` (not a
`TimeoutError`) whose message names the request id, and a reply frame
arriving afterward for that id is dropped without changing any state. -/
theorem c3_timeout_raises_apierror_naming_id_and_late_reply_dropped
    (st : WSState) (rid : Int) (ty : String) (p : JVal)
    (hnd : st.pending.Nodup) :
    (sendRequestAwait st rid .timedOut).2 =
      .error (.apiError ("Request " ++ toString rid ++ " timed out")) ∧
    rid ∉ (sendRequestAwait st rid .timedOut).1.pending ∧
    processMessage (sendRequestAwait st rid .timedOut).1
        (.parsed (postFrame (.num rid) ty p)) =
      (sendRequestAwait st rid .timedOut).1 := by
  refine ⟨rfl, ?_, ?_⟩
  · show rid ∉ removeId st.pending rid
    exact not_mem_removeId_self st.pending rid hnd
  · exact processMessage_postFrame_unknown _ rid ty p
      (not_mem_removeId_self st.pending rid hnd)

/-- C3 witness: the amended statement at the concrete one-pending run. -/
theorem c3_witness :
    (sendRequestAwait exampleClientAfterIssue 1 .timedOut).2 =
      .error (.apiError ("Request " ++ toString (1 : Int) ++ " timed out")) ∧
    (1 : Int) ∉ (sendRequestAwait exampleClientAfterIssue 1 .timedOut).1.pending ∧
    processMessage (sendRequestAwait exampleClientAfterIssue 1 .timedOut).1
        (.parsed (postFrame (.num 1) "info" (.str "late"))) =
      (sendRequestAwait exampleClientAfterIssue 1 .timedOut).1 :=
  c3_timeout_raises_apierror_naming_id_and_late_reply_dropped
    exampleClientAfterIssue 1 "info" (.str "late") (by decide)

/-- C4 counterexample: on a concrete connected client, `subscribe`
transmits the control frame but returns the client state COMPLETELY
unchanged — no (channel, params) pair is recorded anywhere in the client
(there is no Subscription Registry in the code), contradicting the
claim that every subscribe call records the pair. The same holds for
`unsubscribe`. -/
theorem c4_counterexample :
    subscribe_to_channel exampleClient "allMids" none =
      .ok (exampleClient,
           .obj [("method", .str "subscribe"),
                 ("subscription", .obj [("type", .str "allMids")])]) ∧
    unsubscribe_from_channel exampleClient "allMids" none =
      .ok (exampleClient,
           .obj [("method", .str "unsubscribe"),
                 ("subscription", .obj [("type", .str "allMids")])]) :=
  ⟨rfl, rfl⟩

/-- C4 (amended): `subscribe_to_channel` and `unsubscribe_from_channel`
only transmit control frames; the client keeps no subscription registry
at all, so both return the input state unchanged for every channel and
parameter set — hence subscribe immediately followed by a matching
unsubscribe trivially leaves no subscription state behind, acknowledgment
frame or not (acknowledgment frames also change no state). -/
theorem c4_subscribe_unsubscribe_record_nothing
    (st : WSState) (channel : String)
    (params : Option (List (String × JVal)))
    (hws : st.websocket.isSome = true) :
    subscribe_to_channel st channel params =
      .ok (st, mkSubscriptionFrame "subscribe" channel params) ∧
    unsubscribe_from_channel st channel params =
      .ok (st, mkSubscriptionFrame "unsubscribe" channel params) := by
  rw [subscribe_to_channel, unsubscribe_from_channel, if_pos hws, if_pos hws]
  exact ⟨rfl, rfl⟩

/-- C4 witness: the amended statement on a concrete client with a
parameterized trades subscription. -/
theorem c4_witness :
    subscribe_to_channel exampleClient "trades" (some [("coin", .str "SOL")]) =
      .ok (exampleClient,
           mkSubscriptionFrame "subscribe" "trades" (some [("coin", .str "SOL")])) ∧
    unsubscribe_from_channel exampleClient "trades" (some [("coin", .str "SOL")]) =
      .ok (exampleClient,
           mkSubscriptionFrame "unsubscribe" "trades" (some [("coin", .str "SOL")])) :=
  c4_subscribe_unsubscribe_record_nothing exampleClient "trades"
    (some [("coin", .str "SOL")]) rfl

/-- C5: For every send-and-await-reply call (here through the
`send_ws_info_request` facade, which issues the envelope and extracts the
payload from the reply) that receives its matching reply: if the reply's
response is tagged `type == "error"`, the call raises an `APIError`
whose message is `"API Error: "` followed verbatim by the server-supplied
`payload` string; otherwise the facade returns exactly the reply's
payload to the caller. -/
theorem c5_error_reply_raises_apierror_else_payload_returned
    (st : WSState) (payload : JVal) (r : IssueResult) (msg : String)
    (ty : String) (pOut : JVal)
    (hr : sendRequestIssue st (mkInfoRequest payload) = .ok r)
    (hty : ty ≠ "error") :
    (sendRequestAwait
        (processMessage r.st (.parsed (postFrame (.num r.rid) "error" (.str msg))))
        r.rid .resolved).2 =
      .error (.apiError ("API Error: " ++ msg)) ∧
    wsInfoExtract
        (sendRequestAwait
          (processMessage r.st (.parsed (postFrame (.num r.rid) ty pOut)))
          r.rid .resolved).2 =
      .ok pOut := by
  obtain ⟨hc, hrid, hst, hsome, hnone⟩ := sendRequestIssue_ok st _ r hr
  have hmem : r.rid ∈ r.st.pending := by
    rw [hst, hrid]
    exact List.mem_cons_self _ _
  have hfut : lookupFut r.st.futures r.rid = some .pending := by
    rw [hst, hrid]
    simp [lookupFut, List.lookup]
  constructor
  · rw [processMessage_postFrame_hit r.st r.rid "error" (.str msg) hmem hfut]
    have hres : lookupFut
        ({ r.st with
           pending := removeId r.st.pending r.rid
           futures := setFut r.st.futures r.rid
             (.result (postData (.num r.rid) "error" (.str msg))) }).futures r.rid =
        some (.result (postData (.num r.rid) "error" (.str msg))) :=
      lookupFut_setFut_self r.st.futures r.rid _ _ hfut
    rw [sendRequestAwait_resolved_error _ r.rid (.num r.rid) (.str msg) hres]
    rfl
  · rw [processMessage_postFrame_hit r.st r.rid ty pOut hmem hfut]
    have hres : lookupFut
        ({ r.st with
           pending := removeId r.st.pending r.rid
           futures := setFut r.st.futures r.rid
             (.result (postData (.num r.rid) ty pOut)) }).futures r.rid =
        some (.result (postData (.num r.rid) ty pOut)) :=
      lookupFut_setFut_self r.st.futures r.rid _ _ hfut
    rw [sendRequestAwait_resolved_ok _ r.rid (.num r.rid) ty pOut hres hty]
    exact wsInfoExtract_postData (.num r.rid) ty pOut

/-- C5 witness: the spec's two scenarios on a concrete run — an
error-tagged reply `{type:"error", payload:"insufficient margin"}` raises
`APIError("API Error: insufficient margin")`, and an `allMids` reply
returns its payload `{ETH:"3000"}` through the facade. -/
theorem c5_witness :
    (sendRequestAwait
        (processMessage exampleClientAfterIssue
          (.parsed (postFrame (.num 1) "error" (.str "insufficient margin"))))
        1 .resolved).2 =
      .error (.apiError ("API Error: " ++ "insufficient margin")) ∧
    wsInfoExtract
        (sendRequestAwait
          (processMessage exampleClientAfterIssue
            (.parsed (postFrame (.num 1) "allMids" (.obj [("ETH", .str "3000")]))))
          1 .resolved).2 =
      .ok (.obj [("ETH", .str "3000")]) :=
  c5_error_reply_raises_apierror_else_payload_returned
    exampleClient (.obj [("type", .str "allMids")])
    { st := exampleClientAfterIssue
      sent := .obj [("method", .str "post"),
                    ("request", .obj [("type", .str "info"),
                                      ("payload", .obj [("type", .str "allMids")])]),
                    ("id", .num 1)]
      rid := 1 }
    "insufficient margin" "allMids" (.obj [("ETH", .str "3000")])
    rfl (by decide)

/-- C6 counterexample: external cancellation of the caller's wait does
NOT remove the pending entry. On a concrete run with id 1 pending, the
`cancelled` exit of the await leaves the pending table still `[1]`:
`asyncio.CancelledError` is a `BaseException` on Python ≥ 3.8, so the
`except Exception` clause on line 227 never runs for it, contradicting
the claim that every exit path removes the entry. -/
theorem c6_counterexample :
    sendRequestIssue exampleClient (.obj [("method", .str "post")]) =
      .ok { st := exampleClientAfterIssue
            sent := .obj [("method", .str "post"), ("id", .num 1)]
            rid := 1 } ∧
    (sendRequestAwait exampleClientAfterIssue 1 .cancelled).1.pending = [1] ∧
    (sendRequestAwait exampleClientAfterIssue 1 .cancelled).2 =
      .error .cancelledError :=
  ⟨rfl, rfl, rfl⟩

/-- C6 (amended): the pending entry for an issued id is removed on the
success, API-level-error, timeout and connection-closure exit paths of
`send_request` (and the disconnect teardown always empties the whole
table), but NOT on external cancellation of the caller's wait, which
leaves the entry in the table until a late reply pops it or the
connection teardown clears it. -/
theorem c6_entry_removed_on_all_exits_except_cancellation
    (st : WSState) (rid : Int) (hnd : st.pending.Nodup) :
    rid ∉ (sendRequestAwait st rid .timedOut).1.pending ∧
    (∀ ty p, rid ∈ st.pending → lookupFut st.futures rid = some .pending →
      rid ∉ (processMessage st (.parsed (postFrame (.num rid) ty p))).pending) ∧
    (lookupFut st.futures rid = some (.exc (.exception "Connection closed")) →
      rid ∉ (sendRequestAwait st rid .resolved).1.pending) ∧
    (∀ events, (messageHandler st events).pending = []) ∧
    (sendRequestAwait st rid .cancelled).1.pending = st.pending := by
  refine ⟨?_, ?_, ?_, fun events => handlerCleanup_pending _, rfl⟩
  · show rid ∉ removeId st.pending rid
    exact not_mem_removeId_self st.pending rid hnd
  · intro ty p hmem hfut
    rw [processMessage_postFrame_hit st rid ty p hmem hfut]
    exact not_mem_removeId_self st.pending rid hnd
  · intro hexc
    simp only [sendRequestAwait, hexc, PyError.isException]
    simp only [if_true]
    exact not_mem_removeId_self st.pending rid hnd

/-- C6 witness: the amended statement at the concrete one-pending run. -/
theorem c6_witness :
    (1 : Int) ∉ (sendRequestAwait exampleClientAfterIssue 1 .timedOut).1.pending ∧
    (1 : Int) ∉ (processMessage exampleClientAfterIssue
        (.parsed (postFrame (.num 1) "info" (.str "x")))).pending ∧
    (∀ events, (messageHandler exampleClientAfterIssue events).pending = []) ∧
    (sendRequestAwait exampleClientAfterIssue 1 .cancelled).1.pending =
      exampleClientAfterIssue.pending := by
  have h := c6_entry_removed_on_all_exits_except_cancellation
    exampleClientAfterIssue 1 (by decide)
  exact ⟨h.1, h.2.1 "info" (.str "x") (by decide) rfl, h.2.2.2.1, h.2.2.2.2⟩

/-- C7: A malformed (unparseable) inbound frame and a reply frame whose
id is not in the pending table are both processed without raising —
`processMessage` is total, returns the state COMPLETELY unchanged (so
every other pending entry is untouched), and the receive loop carries on
with its next iteration. -/
theorem c7_malformed_and_unknown_id_frames_are_harmless
    (st : WSState) (s : String) (x : Int) (ty : String) (p : JVal)
    (m : RawMsg) (hx : x ∉ st.pending)
    (hrun : st.running = true) (hws : st.websocket.isSome = true) :
    processMessage st (.malformed s) = st ∧
    processMessage st (.parsed (postFrame (.num x) ty p)) = st ∧
    handlerStep st (.msg m) = (processMessage st m, true) := by
  refine ⟨rfl, processMessage_postFrame_unknown st x ty p hx, ?_⟩
  simp [handlerStep, hrun, hws]

/-- C7 witness: an unparseable frame and a reply for unknown id 99 on the
concrete one-pending client change nothing and keep the loop running. -/
theorem c7_witness :
    processMessage exampleClientAfterIssue (.malformed "not json") =
      exampleClientAfterIssue ∧
    processMessage exampleClientAfterIssue
        (.parsed (postFrame (.num 99) "info" (.str "x"))) =
      exampleClientAfterIssue ∧
    handlerStep exampleClientAfterIssue (.msg (.malformed "not json")) =
      (processMessage exampleClientAfterIssue (.malformed "not json"), true) :=
  c7_malformed_and_unknown_id_frames_are_harmless
    exampleClientAfterIssue "not json" 99 "info" (.str "x")
    (.malformed "not json") (by decide) rfl rfl

/-- C8: Request ids come from a per-instance incrementing counter: every
fresh instance (whatever its constructor arguments) starts its own
counter at 0, `connect` keeps it, each successful issue assigns id
`counter + 1` and stores the new counter, the new id is never already
live, and the correlation invariant (`ReqInv`: distinct live ids, all
bounded by the counter) is established by the constructor and preserved
by issuing, by the receive loop and by every await exit — so no two live
pending requests ever share an id, and the first call on a fresh
connected instance gets id 1. -/
theorem c8_counter_per_instance_ids_unique
    (u e : String) (k : Option String) (st : WSState) (req : JVal)
    (r : IssueResult) (hr : sendRequestIssue st req = .ok r)
    (hinv : ReqInv st) :
    (WSState.init u e k).request_counter = 0 ∧
    (WSState.init u e k).connect.request_counter = 0 ∧
    ReqInv (WSState.init u e k).connect ∧
    r.rid = st.request_counter + 1 ∧
    r.st.request_counter = st.request_counter + 1 ∧
    r.rid ∉ st.pending ∧
    ReqInv r.st ∧
    (∀ st2 m, ReqInv st2 → ReqInv (processMessage st2 m)) ∧
    (∀ st2 rid out, ReqInv st2 → ReqInv (sendRequestAwait st2 rid out).1) := by
  obtain ⟨hcnt, hnd, hb⟩ := hinv
  obtain ⟨hc, hrid, hst, hsome, hnone⟩ := sendRequestIssue_ok st req r hr
  have hfresh : st.request_counter + 1 ∉ st.pending := by
    intro hmem
    have := (hb _ hmem).2
    omega
  refine ⟨rfl, rfl, ?_, hrid, ?_, ?_, ?_, reqInv_processMessage,
          fun st2 rid out => reqInv_sendRequestAwait st2 rid out⟩
  · exact ⟨le_refl 0, List.nodup_nil, fun i hi => absurd hi (List.not_mem_nil i)⟩
  · rw [hst]
  · rw [hrid]; exact hfresh
  · rw [hst]
    refine ⟨by dsimp only; omega, List.nodup_cons.mpr ⟨hfresh, hnd⟩, ?_⟩
    intro i hi
    dsimp only at hi ⊢
    rcases List.mem_cons.mp hi with rfl | hmem
    · constructor <;> omega
    · have := hb i hmem
      constructor <;> omega

/-- C8 witness: on the fresh connected example client the first issue
gets id 1, the counter becomes 1, and the invariant holds afterwards. -/
theorem c8_witness :
    (WSState.init "wss://api.hypereth.io/v1/hl/ws" "testnet" none).request_counter = 0 ∧
    ({ st := exampleClientAfterIssue
       sent := .obj [("method", .str "post"), ("id", .num 1)]
       rid := 1 } : IssueResult).rid = exampleClient.request_counter + 1 ∧
    ({ st := exampleClientAfterIssue
       sent := .obj [("method", .str "post"), ("id", .num 1)]
       rid := 1 } : IssueResult).rid ∉ exampleClient.pending ∧
    ReqInv ({ st := exampleClientAfterIssue
              sent := .obj [("method", .str "post"), ("id", .num 1)]
              rid := 1 } : IssueResult).st := by
  have h := c8_counter_per_instance_ids_unique
    "wss://api.hypereth.io/v1/hl/ws" "testnet" none exampleClient
    (.obj [("method", .str "post")])
    { st := exampleClientAfterIssue
      sent := .obj [("method", .str "post"), ("id", .num 1)]
      rid := 1 }
    rfl
    ⟨le_refl 0, List.nodup_nil, fun i hi => absurd hi (List.not_mem_nil i)⟩
  exact ⟨h.1, h.2.2.2.1, h.2.2.2.2.2.1, h.2.2.2.2.2.2.1⟩

/-- C9: When the input envelope already contains an `"id"` key, the
envelope is transmitted with that original id unchanged while the future
is registered under the freshly incremented counter value; a reply frame
carrying the envelope's id (whenever it differs from the counter value)
leaves that caller's future still unresolved. -/
theorem c9_preexisting_id_transmitted_but_future_keyed_by_counter
    (st : WSState) (request idv : JVal) (r : IssueResult)
    (ty : String) (p : JVal)
    (hid : request.getKey "id" = some idv)
    (hr : sendRequestIssue st request = .ok r)
    (hne : idv ≠ .num r.rid) :
    r.sent = request ∧
    r.rid = st.request_counter + 1 ∧
    r.st.pending = r.rid :: st.pending ∧
    lookupFut (processMessage r.st (.parsed (postFrame idv ty p))).futures
        r.rid = some .pending := by
  obtain ⟨hc, hrid, hst, hsome, hnone⟩ := sendRequestIssue_ok st request r hr
  have hfut : lookupFut r.st.futures r.rid = some .pending := by
    rw [hst, hrid]
    simp [lookupFut, List.lookup]
  refine ⟨hsome idv hid, hrid, ?_, ?_⟩
  · rw [hst, hrid]
  · rw [processMessage_postFrame_futures_ne r.st idv ty p r.rid hne]
    exact hfut

/-- C9 witness: an envelope pre-tagged `id: 7` is sent unchanged while
the future is keyed 1; the reply echoing id 7 leaves that future
unresolved. -/
theorem c9_witness :
    ({ st := exampleClientAfterIssue
       sent := .obj [("method", .str "post"), ("id", .num 7)]
       rid := 1 } : IssueResult).sent =
      .obj [("method", .str "post"), ("id", .num 7)] ∧
    ({ st := exampleClientAfterIssue
       sent := .obj [("method", .str "post"), ("id", .num 7)]
       rid := 1 } : IssueResult).rid = exampleClient.request_counter + 1 ∧
    ({ st := exampleClientAfterIssue
       sent := .obj [("method", .str "post"), ("id", .num 7)]
       rid := 1 } : IssueResult).st.pending = 1 :: exampleClient.pending ∧
    lookupFut (processMessage exampleClientAfterIssue
        (.parsed (postFrame (.num 7) "info" (.str "x")))).futures 1 =
      some .pending := by
  have h := c9_preexisting_id_transmitted_but_future_keyed_by_counter
    exampleClient (.obj [("method", .str "post"), ("id", .num 7)]) (.num 7)
    { st := exampleClientAfterIssue
      sent := .obj [("method", .str "post"), ("id", .num 7)]
      rid := 1 }
    "info" (.str "x") rfl rfl
    (by intro hcontra; injection hcontra with h7; exact absurd h7 (by decide))
  exact h

/-- C10: When the input envelope lacks an `"id"` key, `send_request`
inserts the generated id into the caller's own dictionary before
transmission — the transmitted dict IS the caller's mutated dict — and
modifies no other key: afterwards the dict's `"id"` is the generated id
and every other key maps exactly as before. -/
theorem c10_missing_id_inserted_into_callers_dict_only
    (st : WSState) (fields : List (String × JVal)) (r : IssueResult)
    (hid : (JVal.obj fields).getKey "id" = none)
    (hr : sendRequestIssue st (.obj fields) = .ok r) :
    r.sent = .obj (setKeyList fields "id" (.num r.rid)) ∧
    r.sent.getKey "id" = some (.num r.rid) ∧
    (∀ k2, k2 ≠ "id" → r.sent.getKey k2 = (JVal.obj fields).getKey k2) := by
  obtain ⟨hc, hrid, hst, hsome, hnone⟩ := sendRequestIssue_ok st _ r hr
  have hsent : r.sent = .obj (setKeyList fields "id" (.num r.rid)) := by
    rw [hrid]
    exact hnone hid fields rfl
  refine ⟨hsent, ?_, ?_⟩
  · rw [hsent]
    exact lookup_setKeyList_self fields "id" (.num r.rid)
  · intro k2 hk2
    rw [hsent]
    exact lookup_setKeyList_ne fields "id" k2 (.num r.rid) hk2

/-- C10 witness: issuing `{method:"post"}` on the fresh connected client
mutates the dict to `{method:"post", id:1}` — the id is present and the
`method` key is unchanged. -/
theorem c10_witness :
    ({ st := exampleClientAfterIssue
       sent := .obj [("method", .str "post"), ("id", .num 1)]
       rid := 1 } : IssueResult).sent =
      .obj (setKeyList [("method", .str "post")] "id" (.num 1)) ∧
    ({ st := exampleClientAfterIssue
       sent := .obj [("method", .str "post"), ("id", .num 1)]
       rid := 1 } : IssueResult).sent.getKey "id" = some (.num 1) ∧
    ({ st := exampleClientAfterIssue
       sent := .obj [("method", .str "post"), ("id", .num 1)]
       rid := 1 } : IssueResult).sent.getKey "method" =
      (JVal.obj [("method", .str "post")]).getKey "method" := by
  have h := c10_missing_id_inserted_into_callers_dict_only
    exampleClient [("method", .str "post")]
    { st := exampleClientAfterIssue
      sent := .obj [("method", .str "post"), ("id", .num 1)]
      rid := 1 }
    rfl rfl
  exact ⟨h.1, h.2.1, h.2.2 "method" (by decide)⟩

end HyperEthSDK
